import Mathlib

/-!
Shallow embedding of `iron-jump` (src/main.rs), a small 2D platformer.
The source works in `f32`; here every `f32` value is modelled as an exact
rational (`ℚ`).  `f32::consts::PI` is the concrete rational value of the
32-bit float closest to π, namely 13176795/4194304.
-/

namespace IronJump

/-- `COLLISION_TOLERANCE: f32 = 3.0` -/
def COLLISION_TOLERANCE : ℚ := 3

/-- `RECT_TOLERANCE: f32 = 0.1` -/
def RECT_TOLERANCE : ℚ := 1/10

/-- `MAX_SPEED: f32 = 5.8` -/
def MAX_SPEED : ℚ := 29/5

/-- `SPEED_POWER_UP: f32 = 1.5` -/
def SPEED_POWER_UP : ℚ := 3/2

/-- `UP_SPEED: f32 = 7.0` -/
def UP_SPEED : ℚ := 7

/-- `MAX_FALL_SPEED: f32 = -15.0` -/
def MAX_FALL_SPEED : ℚ := -15

/-- `ACCELERATION: f32 = 1.1` -/
def ACCELERATION : ℚ := 11/10

/-- `DECELERATION: f32 = 1.1 * 0.2` -/
def DECELERATION : ℚ := (11/10) * (2/10)

/-- `CHANGE_DIRECTION_SPEED: f32 = 3.0` -/
def CHANGE_DIRECTION_SPEED : ℚ := 3

/-- `MAX_SPEEDUP_COUNT: i32 = 60 * 6` -/
def MAX_SPEEDUP_COUNT : Int := 60 * 6

/-- `SCREEN_WIDTH: f32 = 480.0` -/
def SCREEN_WIDTH : ℚ := 480

/-- `SCREEN_HEIGHT: f32 = 320.0` -/
def SCREEN_HEIGHT : ℚ := 320

/-- `TILE_SIZE: f32 = 32.0` -/
def TILE_SIZE : ℚ := 32

/-- The `f32` value of `f32::consts::PI` (bit pattern 0x40490FDB), as a rational. -/
def PI_F32 : ℚ := 13176795/4194304

/-- `ggez::graphics::Rect`: x/y is the top-left corner, w/h the extent. -/
structure Rect where
  x : ℚ
  y : ℚ
  w : ℚ
  h : ℚ
deriving DecidableEq

/-- `Rect::left()` -/
def Rect.left (r : Rect) : ℚ := r.x

/-- `Rect::right()` -/
def Rect.right (r : Rect) : ℚ := r.x + r.w

/-- `Rect::top()` -/
def Rect.top (r : Rect) : ℚ := r.y

/-- `Rect::bottom()` -/
def Rect.bottom (r : Rect) : ℚ := r.y + r.h

/-- `Rect::zero()` -/
def Rect.zero : Rect := ⟨0, 0, 0, 0⟩

/-- `fn rect_intersection(a: Rect, b: Rect) -> Rect` -/
def rect_intersection (a b : Rect) : Rect :=
  let x := max a.left b.left
  let y := max a.top b.top
  let width := min a.right b.right - x
  let height := min a.bottom b.bottom - y
  let intersection : Rect := ⟨x, y, width, height⟩
  if intersection.w < RECT_TOLERANCE ∨ intersection.h < RECT_TOLERANCE then
    Rect.zero
  else
    intersection

/-- `fn rect_is_empty_with_tolerance(a: Rect) -> bool` -/
def rect_is_empty_with_tolerance (a : Rect) : Bool :=
  a.w < RECT_TOLERANCE ∨ a.h < RECT_TOLERANCE

/-- `na::Vector2<f32>` as used for input and background offsets. -/
structure Vec2 where
  x : ℚ
  y : ℚ
deriving DecidableEq

/-- `struct Player` -/
structure Player where
  x : ℚ
  y : ℚ
  move_x : ℚ
  move_y : ℚ
  jumping : Bool
  alpha : ℚ
  rotation : ℚ
  speed_up_counter : Int
deriving DecidableEq

/-- `Player::new(x, y)` -/
def Player.new (x y : ℚ) : Player :=
  { x := x, y := y, move_x := 0, move_y := 0, jumping := false,
    alpha := 1, rotation := 0, speed_up_counter := 0 }

/-- Lines 91–96 of `Player::update_from_input`: speed-boost counter decay. -/
def speedCounterStep (p : Player) : Player :=
  if p.speed_up_counter > 0 then
    let c := p.speed_up_counter + 1
    if c > MAX_SPEEDUP_COUNT then { p with speed_up_counter := 0 }
    else { p with speed_up_counter := c }
  else p

/-- Line 98 of `Player::update_from_input`: the max speed in effect this frame. -/
def currentMaxSpeed (p : Player) : ℚ :=
  if p.speed_up_counter > 0 then MAX_SPEED * SPEED_POWER_UP else MAX_SPEED

/-- Lines 100–120 of `Player::update_from_input`: the horizontal-acceleration
branches.  Returns the updated player and the `move_left_or_right` flag. -/
def horizStep (p : Player) (ix : ℚ) (cms : ℚ) : Player × Bool :=
  if ix < 0 then
    let m1 := if p.move_x < 0 then
        p.move_x + |ix| * ACCELERATION * CHANGE_DIRECTION_SPEED
      else p.move_x
    let m2 := m1 + |ix| * ACCELERATION
    let m3 := if m2 > cms then cms else m2
    ({ p with move_x := m3 }, true)
  else if ix > 0 then
    let m1 := if p.move_x > 0 then
        p.move_x - |ix| * ACCELERATION * CHANGE_DIRECTION_SPEED
      else p.move_x
    let m2 := m1 - |ix| * ACCELERATION
    let m3 := if m2 < -cms then -cms else m2
    ({ p with move_x := m3 }, true)
  else (p, false)

/-- Lines 122–127 of `Player::update_from_input`: the jump branch. -/
def jumpStep (p : Player) (iy : ℚ) : Player :=
  if p.jumping = false ∧ iy > 0 then
    let my := if p.move_y < UP_SPEED then UP_SPEED else p.move_y
    { p with move_y := my, jumping := true }
  else p

/-- Lines 129–139 of `Player::update_from_input`: horizontal deceleration when
no left/right input was given. -/
def decelStep (p : Player) (move_left_or_right : Bool) : Player :=
  if move_left_or_right then p
  else if |p.move_x| < DECELERATION then { p with move_x := 0 }
  else if p.move_x > 0 then { p with move_x := p.move_x - DECELERATION }
  else if p.move_x < 0 then { p with move_x := p.move_x + DECELERATION }
  else p

/-- Lines 141–145 of `Player::update_from_input`: gravity, fall-speed clamp,
and the unconditional `jumping = true`. -/
def gravityStep (p : Player) : Player :=
  let my := p.move_y - DECELERATION
  let my2 := if my < MAX_FALL_SPEED then MAX_FALL_SPEED else my
  { p with move_y := my2, jumping := true }

/-- Lines 147–150 of `Player::update_from_input`: alpha phase accumulator. -/
def alphaStep (p : Player) : Player :=
  let a := p.alpha + 7/100
  { p with alpha := if a > PI_F32 then a - PI_F32 else a }

/-- `Player::update_from_input(input_acceleration)` -/
def Player.update_from_input (p : Player) (input_acceleration : Vec2) : Player :=
  let p1 := speedCounterStep p
  let cms := currentMaxSpeed p1
  let hz := horizStep p1 input_acceleration.x cms
  let p3 := jumpStep hz.1 input_acceleration.y
  let p4 := decelStep p3 hz.2
  alphaStep (gravityStep p4)

/-- `Player::update_after_collision()` -/
def Player.update_after_collision (p : Player) : Player :=
  let unit_velocity := p.move_x / (TILE_SIZE / 2)
  { p with rotation := p.rotation - unit_velocity * (55/100) }

/-- `Player::rect()` -/
def Player.rect (p : Player) : Rect :=
  ⟨p.x, p.y, TILE_SIZE, TILE_SIZE⟩

/-- `struct Platform` -/
structure Platform where
  x : ℚ
  y : ℚ
  width_segments : Int
  height_segments : Int
deriving DecidableEq

/-- `Platform::move_world(offset_x, offset_y)` -/
def Platform.move_world (p : Platform) (offset_x offset_y : ℚ) : Platform :=
  { p with x := p.x + offset_x, y := p.y + offset_y }

/-- `Platform::is_platform()` -/
def Platform.is_platform (_ : Platform) : Bool := true

/-- `Platform::rect()` -/
def Platform.rect (p : Platform) : Rect :=
  ⟨p.x, p.y, (p.width_segments : ℚ) * TILE_SIZE, (p.height_segments : ℚ) * TILE_SIZE⟩

/-- `struct Game` without the three image handles (draw-only resources). -/
structure Game where
  player : Player
  game_objects : List Platform
  input_acceleration : Vec2
  background_offset : Vec2
deriving DecidableEq

/-- `Game::move_world(x, y)` -/
def Game.move_world (g : Game) (x y : ℚ) : Game :=
  { g with
    game_objects := g.game_objects.map (fun q => q.move_world x y),
    background_offset :=
      ⟨g.background_offset.x + x * (25/100), g.background_offset.y + y * (25/100)⟩ }

/-- The loop body of `Game::collision_left_right`, folded over the platform
list: accumulates `(is_colliding, offset_x)`. -/
def clrBody (pl : Player) (acc : Bool × ℚ) (q : Platform) : Bool × ℚ :=
  if q.is_platform then
    let intersection := rect_intersection q.rect pl.rect
    if rect_is_empty_with_tolerance intersection then acc
    else if q.rect.left > pl.rect.left then (true, intersection.w)
    else if q.rect.right < pl.rect.right then (true, -intersection.w)
    else acc
  else acc

/-- `Game::collision_left_right()` -/
def Game.collision_left_right (g : Game) : Game :=
  let s := g.game_objects.foldl (clrBody g.player) (false, 0)
  if s.1 then
    let g2 := g.move_world s.2 0
    { g2 with player := { g2.player with move_x := 0 } }
  else g

/-- The loop body of `Game::collision_up_down`, folded over the platform list.
The player is threaded through because the loop mutates `move_y` and
`jumping` mid-iteration. -/
def cudBody (acc : Player × Bool × ℚ) (q : Platform) : Player × Bool × ℚ :=
  let pl := acc.1
  if q.is_platform then
    let intersection := rect_intersection q.rect pl.rect
    if rect_is_empty_with_tolerance intersection then acc
    else if q.rect.bottom < pl.rect.bottom then
      let pl2 := if pl.move_y > 0 then { pl with move_y := 0 } else pl
      (pl2, true, -intersection.h)
    else if pl.move_y < 0 then
      if q.rect.top > pl.rect.bottom - COLLISION_TOLERANCE + pl.move_y then
        ({ pl with move_y := 0, jumping := false }, true, intersection.h)
      else acc
    else if q.rect.top > pl.rect.bottom - COLLISION_TOLERANCE + pl.move_y then
      ({ pl with jumping := false }, true, intersection.h)
    else acc
  else acc

/-- `Game::collision_up_down()` -/
def Game.collision_up_down (g : Game) : Game :=
  let s := g.game_objects.foldl cudBody (g.player, false, 0)
  let g2 := { g with player := s.1 }
  if s.2.1 then g2.move_world 0 s.2.2 else g2

/-- One frame: `EventHandler::update` for `Game` (platform `update()` is a
no-op, so it is omitted). -/
def Game.update (g : Game) : Game :=
  let g1 := { g with player := g.player.update_from_input g.input_acceleration }
  let g2 := g1.move_world g1.player.move_x 0
  let g3 := g2.collision_left_right
  let g4 := g3.move_world 0 g3.player.move_y
  let g5 := g4.collision_up_down
  { g5 with player := g5.player.update_after_collision }

/-- The key codes the game reacts to (`KeyCode::Left/Right/Up`); `Other`
stands for every other key. -/
inductive GameKey where
  | left
  | right
  | up
  | other
deriving DecidableEq

/-- `EventHandler::key_down_event` for `Game`. -/
def Game.key_down_event (g : Game) (k : GameKey) : Game :=
  match k with
  | .left => { g with input_acceleration := ⟨-1, g.input_acceleration.y⟩ }
  | .right => { g with input_acceleration := ⟨1, g.input_acceleration.y⟩ }
  | .up => { g with input_acceleration := ⟨g.input_acceleration.x, 1⟩ }
  | .other => g

/-- `EventHandler::key_up_event` for `Game`. -/
def Game.key_up_event (g : Game) (k : GameKey) : Game :=
  match k with
  | .left => { g with input_acceleration := ⟨0, g.input_acceleration.y⟩ }
  | .right => { g with input_acceleration := ⟨0, g.input_acceleration.y⟩ }
  | .up => { g with input_acceleration := ⟨g.input_acceleration.x, 0⟩ }
  | .other => g

/-- `Game::new` without the image loading (which cannot fail in the model). -/
def Game.new : Game :=
  let game_objects : List Platform :=
    [ { x := 256, y := 512, width_segments := 11, height_segments := 5 },
      { x := 768, y := 512, width_segments := 10, height_segments := 5 },
      { x := 1216, y := 512, width_segments := 9, height_segments := 5 } ]
  let player_x : ℚ := 384
  let player_y : ℚ := 480
  let center_x := SCREEN_WIDTH / 2 - TILE_SIZE / 2
  let center_y := SCREEN_HEIGHT / 2 - TILE_SIZE / 2
  let player := Player.new center_x center_y
  let game : Game :=
    { player := player, game_objects := game_objects,
      input_acceleration := ⟨0, 0⟩, background_offset := ⟨0, 0⟩ }
  game.move_world (center_x - player_x) (center_y - player_y)

/-- Applying `update_from_input` `n` times, frame `k` receiving input `f k`. -/
def applySeq (f : ℕ → Vec2) : ℕ → Player → Player
  | 0, p => p
  | n + 1, p => (applySeq f n p).update_from_input (f n)

end IronJump

namespace IronJump

/-! ### Field-preservation lemmas for the pieces of `update_from_input` -/

theorem speedCounterStep_move_x (p : Player) : (speedCounterStep p).move_x = p.move_x := by
  simp only [speedCounterStep]
  split_ifs <;> rfl

theorem speedCounterStep_move_y (p : Player) : (speedCounterStep p).move_y = p.move_y := by
  simp only [speedCounterStep]
  split_ifs <;> rfl

theorem speedCounterStep_jumping (p : Player) : (speedCounterStep p).jumping = p.jumping := by
  simp only [speedCounterStep]
  split_ifs <;> rfl

theorem speedCounterStep_x (p : Player) : (speedCounterStep p).x = p.x := by
  simp only [speedCounterStep]
  split_ifs <;> rfl

theorem speedCounterStep_y (p : Player) : (speedCounterStep p).y = p.y := by
  simp only [speedCounterStep]
  split_ifs <;> rfl

theorem horizStep_counter (p : Player) (ix cms : ℚ) :
    ((horizStep p ix cms).1).speed_up_counter = p.speed_up_counter := by
  simp only [horizStep]
  split_ifs <;> rfl

theorem horizStep_move_y (p : Player) (ix cms : ℚ) :
    ((horizStep p ix cms).1).move_y = p.move_y := by
  simp only [horizStep]
  split_ifs <;> rfl

theorem horizStep_jumping (p : Player) (ix cms : ℚ) :
    ((horizStep p ix cms).1).jumping = p.jumping := by
  simp only [horizStep]
  split_ifs <;> rfl

theorem horizStep_x (p : Player) (ix cms : ℚ) : ((horizStep p ix cms).1).x = p.x := by
  simp only [horizStep]
  split_ifs <;> rfl

theorem horizStep_y (p : Player) (ix cms : ℚ) : ((horizStep p ix cms).1).y = p.y := by
  simp only [horizStep]
  split_ifs <;> rfl

theorem jumpStep_move_x (p : Player) (iy : ℚ) : (jumpStep p iy).move_x = p.move_x := by
  simp only [jumpStep]
  split_ifs <;> rfl

theorem jumpStep_counter (p : Player) (iy : ℚ) :
    (jumpStep p iy).speed_up_counter = p.speed_up_counter := by
  simp only [jumpStep]
  split_ifs <;> rfl

theorem jumpStep_x (p : Player) (iy : ℚ) : (jumpStep p iy).x = p.x := by
  simp only [jumpStep]
  split_ifs <;> rfl

theorem jumpStep_y (p : Player) (iy : ℚ) : (jumpStep p iy).y = p.y := by
  simp only [jumpStep]
  split_ifs <;> rfl

theorem decelStep_move_y (p : Player) (b : Bool) : (decelStep p b).move_y = p.move_y := by
  simp only [decelStep]
  split_ifs <;> rfl

theorem decelStep_jumping (p : Player) (b : Bool) : (decelStep p b).jumping = p.jumping := by
  simp only [decelStep]
  split_ifs <;> rfl

theorem decelStep_counter (p : Player) (b : Bool) :
    (decelStep p b).speed_up_counter = p.speed_up_counter := by
  simp only [decelStep]
  split_ifs <;> rfl

theorem decelStep_x (p : Player) (b : Bool) : (decelStep p b).x = p.x := by
  simp only [decelStep]
  split_ifs <;> rfl

theorem decelStep_y (p : Player) (b : Bool) : (decelStep p b).y = p.y := by
  simp only [decelStep]
  split_ifs <;> rfl

theorem gravityStep_move_x (p : Player) : (gravityStep p).move_x = p.move_x := rfl

theorem gravityStep_counter (p : Player) :
    (gravityStep p).speed_up_counter = p.speed_up_counter := rfl

theorem gravityStep_x (p : Player) : (gravityStep p).x = p.x := rfl

theorem gravityStep_y (p : Player) : (gravityStep p).y = p.y := rfl

theorem alphaStep_move_x (p : Player) : (alphaStep p).move_x = p.move_x := rfl

theorem alphaStep_move_y (p : Player) : (alphaStep p).move_y = p.move_y := rfl

theorem alphaStep_jumping (p : Player) : (alphaStep p).jumping = p.jumping := rfl

theorem alphaStep_counter (p : Player) :
    (alphaStep p).speed_up_counter = p.speed_up_counter := rfl

theorem alphaStep_x (p : Player) : (alphaStep p).x = p.x := rfl

theorem alphaStep_y (p : Player) : (alphaStep p).y = p.y := rfl

theorem update_from_input_x (p : Player) (i : Vec2) :
    (p.update_from_input i).x = p.x := by
  unfold Player.update_from_input
  simp [alphaStep_x, gravityStep_x, decelStep_x, jumpStep_x, horizStep_x, speedCounterStep_x]

theorem update_from_input_y (p : Player) (i : Vec2) :
    (p.update_from_input i).y = p.y := by
  unfold Player.update_from_input
  simp [alphaStep_y, gravityStep_y, decelStep_y, jumpStep_y, horizStep_y, speedCounterStep_y]

theorem MAX_SPEED_le_currentMaxSpeed (p : Player) : MAX_SPEED ≤ currentMaxSpeed p := by
  unfold currentMaxSpeed
  split_ifs <;> norm_num [MAX_SPEED, SPEED_POWER_UP]

end IronJump

namespace IronJump

theorem horizStep_neg_one_of_zero (p : Player) (cms : ℚ) (h0 : p.move_x = 0)
    (hc : ACCELERATION ≤ cms) :
    horizStep p (-1) cms = ({ p with move_x := ACCELERATION }, true) := by
  have hlt : ¬ ((ACCELERATION : ℚ) > cms) := not_lt.mpr hc
  simp only [horizStep, h0]
  norm_num [ACCELERATION] at hlt ⊢
  intro h2
  linarith

/-- C1 (counterexample): starting from rest, one call of `update_from_input`
with `input_acceleration.x = -1` yields `move_x = +ACCELERATION`, not
`-ACCELERATION`: pressing left increases `move_x`, because `move_x` is the
world-shift velocity. -/
theorem C1_counterexample :
    ((Player.new 0 0).update_from_input ⟨-1, 0⟩).move_x ≠ -ACCELERATION := by
  norm_num [Player.update_from_input, speedCounterStep, currentMaxSpeed, horizStep,
    jumpStep, decelStep, gravityStep, alphaStep, Player.new, ACCELERATION,
    CHANGE_DIRECTION_SPEED, MAX_SPEED, SPEED_POWER_UP, UP_SPEED, DECELERATION,
    MAX_FALL_SPEED, PI_F32, MAX_SPEEDUP_COUNT]

/-- C1 (amended): starting from a player at rest (`move_x = 0`), calling
`update_from_input` once with `input_acceleration.x = -1` results in
`move_x = +ACCELERATION = 1.1`. -/
theorem C1_update_from_input_left_from_rest (p : Player) (iy : ℚ) (h : p.move_x = 0) :
    (p.update_from_input ⟨-1, iy⟩).move_x = ACCELERATION := by
  have hcms := MAX_SPEED_le_currentMaxSpeed (speedCounterStep p)
  have h1 : (speedCounterStep p).move_x = 0 := by rw [speedCounterStep_move_x, h]
  have hacc : ACCELERATION ≤ currentMaxSpeed (speedCounterStep p) :=
    le_trans (by norm_num [ACCELERATION, MAX_SPEED]) hcms
  simp only [Player.update_from_input, alphaStep_move_x, gravityStep_move_x]
  rw [horizStep_neg_one_of_zero _ _ h1 hacc]
  simp [decelStep, jumpStep_move_x]

/-- C1 (witness): the amended statement instantiated at `Player::new(0, 0)`. -/
theorem C1_witness :
    (Player.new 0 0).move_x = 0 ∧
      ((Player.new 0 0).update_from_input ⟨-1, 0⟩).move_x = ACCELERATION :=
  ⟨rfl, C1_update_from_input_left_from_rest (Player.new 0 0) 0 rfl⟩

end IronJump

namespace IronJump

/-- Two axis-aligned rectangles that do not overlap: one lies entirely to the
left of, to the right of, above, or below the other. -/
def RectDisjoint (a b : Rect) : Prop :=
  a.right ≤ b.left ∨ b.right ≤ a.left ∨ a.bottom ≤ b.top ∨ b.bottom ≤ a.top

/-- C4 (counterexample): `rect_intersection` applied to two identical
degenerate rectangles (width 1/20 < ε) returns the zero rectangle, not the
rectangle itself. -/
theorem C4_counterexample :
    rect_intersection ⟨0, 0, 1/20, 5⟩ ⟨0, 0, 1/20, 5⟩ ≠ ⟨0, 0, 1/20, 5⟩ := by
  norm_num [rect_intersection, Rect.left, Rect.right, Rect.top, Rect.bottom,
    Rect.zero, RECT_TOLERANCE]

/-- C4 (amended): non-overlapping rectangles intersect to the zero rectangle;
identical rectangles with width and height at least ε = 0.1 are returned
unchanged; whenever the computed overlap has width or height below ε the
result is the zero rectangle. -/
theorem C4_rect_intersection_cases :
    (∀ a b : Rect, RectDisjoint a b → rect_intersection a b = Rect.zero) ∧
    (∀ a : Rect, RECT_TOLERANCE ≤ a.w → RECT_TOLERANCE ≤ a.h →
      rect_intersection a a = a) ∧
    (∀ a b : Rect,
      (min a.right b.right - max a.left b.left < RECT_TOLERANCE ∨
        min a.bottom b.bottom - max a.top b.top < RECT_TOLERANCE) →
      rect_intersection a b = Rect.zero) := by
  refine ⟨?_, ?_, ?_⟩
  · intro a b hd
    simp only [rect_intersection]
    rw [if_pos]
    rcases hd with h | h | h | h
    · left
      have h1 : min a.right b.right ≤ a.right := min_le_left _ _
      have h2 : b.left ≤ max a.left b.left := le_max_right _ _
      simp only [RECT_TOLERANCE]
      linarith
    · left
      have h1 : min a.right b.right ≤ b.right := min_le_right _ _
      have h2 : a.left ≤ max a.left b.left := le_max_left _ _
      simp only [RECT_TOLERANCE]
      linarith
    · right
      have h1 : min a.bottom b.bottom ≤ a.bottom := min_le_left _ _
      have h2 : b.top ≤ max a.top b.top := le_max_right _ _
      simp only [RECT_TOLERANCE]
      linarith
    · right
      have h1 : min a.bottom b.bottom ≤ b.bottom := min_le_right _ _
      have h2 : a.top ≤ max a.top b.top := le_max_left _ _
      simp only [RECT_TOLERANCE]
      linarith
  · intro a h1 h2
    obtain ⟨x, y, w, h⟩ := a
    simp only [rect_intersection, Rect.left, Rect.right, Rect.top, Rect.bottom,
      max_self, min_self] at h1 h2 ⊢
    rw [if_neg]
    · simp
    · push_neg
      refine ⟨by linarith, by linarith⟩
  · intro a b h
    simp only [rect_intersection]
    rw [if_pos]
    exact h

/-- C4 (witness): the three parts at concrete rectangles. -/
theorem C4_witness :
    rect_intersection ⟨0, 0, 1, 1⟩ ⟨5, 5, 1, 1⟩ = Rect.zero ∧
      rect_intersection ⟨0, 0, 2, 3⟩ ⟨0, 0, 2, 3⟩ = ⟨0, 0, 2, 3⟩ ∧
      rect_intersection ⟨0, 0, 1, 1⟩ ⟨19/20, 0, 1, 1⟩ = Rect.zero :=
  ⟨C4_rect_intersection_cases.1 ⟨0, 0, 1, 1⟩ ⟨5, 5, 1, 1⟩
      (by norm_num [RectDisjoint, Rect.right, Rect.left, Rect.top, Rect.bottom]),
    C4_rect_intersection_cases.2.1 ⟨0, 0, 2, 3⟩
      (by norm_num [RECT_TOLERANCE]) (by norm_num [RECT_TOLERANCE]),
    C4_rect_intersection_cases.2.2 ⟨0, 0, 1, 1⟩ ⟨19/20, 0, 1, 1⟩
      (by norm_num [Rect.right, Rect.left, Rect.top, Rect.bottom, RECT_TOLERANCE])⟩

/-- C7: the jump branch of `update_from_input`: with `jumping = false` and
positive vertical input it sets `move_y` to `max move_y UP_SPEED` and marks
`jumping`; while already jumping it changes nothing. -/
theorem C7_jumpStep_spec :
    (∀ (p : Player) (iy : ℚ), p.jumping = false → 0 < iy →
      jumpStep p iy = { p with move_y := max p.move_y UP_SPEED, jumping := true }) ∧
    (∀ (p : Player) (iy : ℚ), p.jumping = true → jumpStep p iy = p) := by
  constructor
  · intro p iy hj hy
    simp only [jumpStep]
    rw [if_pos ⟨hj, hy⟩]
    rcases lt_or_le p.move_y UP_SPEED with h | h
    · rw [if_pos h, max_eq_right h.le]
    · rw [if_neg (not_lt.mpr h), max_eq_left h]
  · intro p iy hj
    simp only [jumpStep]
    rw [if_neg]
    simp [hj]

/-- C7 (witness): jumping from rest sets `move_y = 7` and `jumping = true`;
re-applying jump input while jumping changes nothing. -/
theorem C7_witness :
    jumpStep (Player.new 0 0) 1
        = { Player.new 0 0 with move_y := max 0 UP_SPEED, jumping := true } ∧
      jumpStep { Player.new 0 0 with jumping := true } 1
        = { Player.new 0 0 with jumping := true } :=
  ⟨C7_jumpStep_spec.1 (Player.new 0 0) 1 rfl (by norm_num),
    C7_jumpStep_spec.2 { Player.new 0 0 with jumping := true } 1 rfl⟩

theorem speedCounterStep_counter (p : Player) :
    (speedCounterStep p).speed_up_counter =
      if p.speed_up_counter > 0 then
        if p.speed_up_counter + 1 > MAX_SPEEDUP_COUNT then 0 else p.speed_up_counter + 1
      else p.speed_up_counter := by
  simp only [speedCounterStep]
  split_ifs <;> rfl

theorem update_from_input_counter (p : Player) (i : Vec2) :
    (p.update_from_input i).speed_up_counter = (speedCounterStep p).speed_up_counter := by
  unfold Player.update_from_input
  simp [alphaStep_counter, gravityStep_counter, decelStep_counter, jumpStep_counter,
    horizStep_counter]

theorem applySeq_counter_cases (f : ℕ → Vec2) (p : Player)
    (h : 0 < p.speed_up_counter) (n : ℕ) (hn : 1 ≤ n) :
    (applySeq f n p).speed_up_counter = 0 ∨
      ((applySeq f n p).speed_up_counter = p.speed_up_counter + n ∧
        p.speed_up_counter + n ≤ MAX_SPEEDUP_COUNT) := by
  induction n with
  | zero => omega
  | succ m ih =>
    rcases Nat.eq_or_lt_of_le hn with h1 | h1
    · have hm : m = 0 := by omega
      subst hm
      simp only [applySeq, update_from_input_counter, speedCounterStep_counter]
      rw [if_pos h]
      split_ifs with h2
      · exact Or.inl rfl
      · right
        push_neg at h2
        constructor
        · push_cast
          ring
        · simpa using h2
    · have hm : 1 ≤ m := by omega
      rcases ih hm with h0 | ⟨hc, hle⟩
      · left
        simp only [applySeq, update_from_input_counter, speedCounterStep_counter, h0]
        norm_num
      · have hpos : 0 < (applySeq f m p).speed_up_counter := by
          rw [hc]
          have : (0:ℤ) < (m:ℤ) := by exact_mod_cast hm
          linarith
        simp only [applySeq, update_from_input_counter, speedCounterStep_counter]
        rw [if_pos hpos, hc]
        split_ifs with h2
        · exact Or.inl rfl
        · right
          push_neg at h2
          constructor
          · push_cast
            ring
          · push_cast at h2 ⊢
            linarith

/-- C5: if `speed_up_counter` is positive, then after 361 further calls of
`update_from_input` (with any input sequence) it is exactly 0, and the max
speed in effect during the 361st call is the unboosted `MAX_SPEED`. -/
theorem C5_speedup_counter_expires (f : ℕ → Vec2) (p : Player)
    (h : 0 < p.speed_up_counter) :
    (applySeq f 361 p).speed_up_counter = 0 ∧
      currentMaxSpeed (speedCounterStep (applySeq f 360 p)) = MAX_SPEED := by
  have h360 : (applySeq f 360 p).speed_up_counter = 0 := by
    rcases applySeq_counter_cases f p h 360 (by norm_num) with h0 | ⟨_, hle⟩
    · exact h0
    · exfalso
      simp only [MAX_SPEEDUP_COUNT] at hle
      norm_num at hle
      omega
  constructor
  · show (applySeq f 361 p).speed_up_counter = 0
    have : applySeq f 361 p = (applySeq f 360 p).update_from_input (f 360) := rfl
    rw [this, update_from_input_counter, speedCounterStep_counter, h360]
    norm_num
  · rw [currentMaxSpeed, if_neg]
    rw [speedCounterStep_counter, h360]
    norm_num

/-- C5 (witness): the statement at a player whose counter was just set to 1,
with constant zero input. -/
theorem C5_witness :
    (0 : ℤ) < ({ Player.new 0 0 with speed_up_counter := 1 } : Player).speed_up_counter ∧
      ((applySeq (fun _ => ⟨0, 0⟩) 361
          { Player.new 0 0 with speed_up_counter := 1 }).speed_up_counter = 0 ∧
        currentMaxSpeed (speedCounterStep (applySeq (fun _ => ⟨0, 0⟩) 360
          { Player.new 0 0 with speed_up_counter := 1 })) = MAX_SPEED) :=
  ⟨by decide,
    C5_speedup_counter_expires (fun _ => ⟨0, 0⟩)
      { Player.new 0 0 with speed_up_counter := 1 } (by decide)⟩

theorem decelStep_move_x_false (p : Player) :
    (decelStep p false).move_x =
      if |p.move_x| < DECELERATION then 0
      else if p.move_x > 0 then p.move_x - DECELERATION
      else if p.move_x < 0 then p.move_x + DECELERATION
      else p.move_x := by
  simp only [decelStep]
  split_ifs <;> simp_all

theorem update_from_input_move_x_zero_input (p : Player) (i : Vec2) (hx : i.x = 0) :
    (p.update_from_input i).move_x =
      if |p.move_x| < DECELERATION then 0
      else if p.move_x > 0 then p.move_x - DECELERATION
      else if p.move_x < 0 then p.move_x + DECELERATION
      else p.move_x := by
  have h1 : horizStep (speedCounterStep p) i.x (currentMaxSpeed (speedCounterStep p))
      = (speedCounterStep p, false) := by
    simp [horizStep, hx]
  simp only [Player.update_from_input, h1, alphaStep_move_x, gravityStep_move_x,
    decelStep_move_x_false, jumpStep_move_x, speedCounterStep_move_x]

theorem zero_input_step (p : Player) (i : Vec2) (hx : i.x = 0) :
    ((p.update_from_input i).move_x = 0 ∧ |p.move_x| < DECELERATION) ∨
      ((p.update_from_input i).move_x = p.move_x - DECELERATION ∧
        DECELERATION ≤ p.move_x) ∨
      ((p.update_from_input i).move_x = p.move_x + DECELERATION ∧
        p.move_x ≤ -DECELERATION) := by
  rw [update_from_input_move_x_zero_input p i hx]
  split_ifs with h1 h2 h3
  · exact Or.inl ⟨rfl, h1⟩
  · refine Or.inr (Or.inl ⟨rfl, ?_⟩)
    push_neg at h1
    rcases abs_cases p.move_x with ⟨he, _⟩ | ⟨_, hneg⟩
    · linarith
    · linarith
  · refine Or.inr (Or.inr ⟨rfl, ?_⟩)
    push_neg at h1 h2
    rcases abs_cases p.move_x with ⟨_, hpos⟩ | ⟨he, _⟩
    · linarith
    · linarith
  · exfalso
    push_neg at h1 h2 h3
    have h0 : p.move_x = 0 := le_antisymm h2 h3
    rw [h0] at h1
    norm_num [DECELERATION] at h1

theorem zero_input_invariant (f : ℕ → Vec2) (p : Player) (hf : ∀ k, (f k).x = 0)
    (k : ℕ) :
    ((applySeq f k p).move_x = 0 ∨
        |(applySeq f k p).move_x| ≤ |p.move_x| - k * DECELERATION) ∧
      (0 ≤ p.move_x → 0 ≤ (applySeq f k p).move_x) ∧
      (p.move_x ≤ 0 → (applySeq f k p).move_x ≤ 0) := by
  have hD : (0:ℚ) < DECELERATION := by norm_num [DECELERATION]
  induction k with
  | zero =>
    exact ⟨Or.inr (by simp [applySeq]), fun h => by simpa [applySeq] using h,
      fun h => by simpa [applySeq] using h⟩
  | succ m ih =>
    obtain ⟨habs, hpos, hneg⟩ := ih
    rcases zero_input_step (applySeq f m p) (f m) (hf m) with
      ⟨h0, _⟩ | ⟨heq, hge⟩ | ⟨heq, hle⟩
    · refine ⟨Or.inl ?_, fun _ => ?_, fun _ => ?_⟩ <;>
        simp only [applySeq, h0] <;> norm_num
    · have hmk : 0 < (applySeq f m p).move_x := lt_of_lt_of_le hD hge
      have habs2 : |(applySeq f m p).move_x| ≤ |p.move_x| - m * DECELERATION := by
        rcases habs with h | h
        · rw [h] at hmk
          exact absurd hmk (lt_irrefl 0)
        · exact h
      refine ⟨Or.inr ?_, fun _ => ?_, fun hm0 => ?_⟩
      · simp only [applySeq, heq]
        rw [abs_of_pos hmk] at habs2
        rw [abs_of_nonneg (by linarith : (0:ℚ) ≤ (applySeq f m p).move_x - DECELERATION)]
        push_cast
        linarith
      · simp only [applySeq, heq]
        linarith
      · exact absurd (hneg hm0) (not_le.mpr hmk)
    · have hmk : (applySeq f m p).move_x < 0 := lt_of_le_of_lt hle (by linarith)
      have habs2 : |(applySeq f m p).move_x| ≤ |p.move_x| - m * DECELERATION := by
        rcases habs with h | h
        · rw [h] at hmk
          exact absurd hmk (lt_irrefl 0)
        · exact h
      refine ⟨Or.inr ?_, fun hm0 => ?_, fun _ => ?_⟩
      · simp only [applySeq, heq]
        rw [abs_of_neg hmk] at habs2
        rw [abs_of_nonpos (by linarith : (applySeq f m p).move_x + DECELERATION ≤ 0)]
        push_cast
        linarith
      · exact absurd (hpos hm0) (not_le.mpr hmk)
      · simp only [applySeq, heq]
        linarith

/-- C6: with zero horizontal input on every frame, `move_x` reaches exactly 0
after finitely many calls of `update_from_input`, and it never takes the sign
opposite to its initial one. -/
theorem C6_decel_converges (f : ℕ → Vec2) (p : Player) (hf : ∀ k, (f k).x = 0) :
    (∃ n, (applySeq f n p).move_x = 0) ∧
      ∀ k, 0 ≤ (applySeq f k p).move_x * p.move_x := by
  have hD : (0:ℚ) < DECELERATION := by norm_num [DECELERATION]
  constructor
  · obtain ⟨n, hn⟩ := exists_nat_gt (|p.move_x| / DECELERATION)
    refine ⟨n, ?_⟩
    rcases (zero_input_invariant f p hf n).1 with h | h
    · exact h
    · have h2 : |p.move_x| < n * DECELERATION := by
        rw [div_lt_iff₀ hD] at hn
        linarith
      have h3 := abs_nonneg ((applySeq f n p).move_x)
      linarith
  · intro k
    rcases le_total 0 p.move_x with h | h
    · exact mul_nonneg ((zero_input_invariant f p hf k).2.1 h) h
    · have h1 := (zero_input_invariant f p hf k).2.2 h
      nlinarith

/-- C6 (witness): the statement at a player with `move_x = 1/2` and constant
zero input. -/
theorem C6_witness :
    (∀ k : ℕ, ((fun _ : ℕ => (⟨0, 0⟩ : Vec2)) k).x = 0) ∧
      ((∃ n, (applySeq (fun _ => ⟨0, 0⟩) n
          { Player.new 0 0 with move_x := 1/2 }).move_x = 0) ∧
        ∀ k, 0 ≤ (applySeq (fun _ => ⟨0, 0⟩) k
          { Player.new 0 0 with move_x := 1/2 }).move_x *
            ({ Player.new 0 0 with move_x := 1/2 } : Player).move_x) :=
  ⟨fun _ => rfl,
    C6_decel_converges (fun _ => ⟨0, 0⟩) { Player.new 0 0 with move_x := 1/2 }
      (fun _ => rfl)⟩

theorem speedCounterStep_eq_self (p : Player) (hc : p.speed_up_counter = 0) :
    speedCounterStep p = p := by
  simp [speedCounterStep, hc]

theorem currentMaxSpeed_eq_base (p : Player) (hc : p.speed_up_counter = 0) :
    currentMaxSpeed p = MAX_SPEED := by
  simp [currentMaxSpeed, hc]

theorem horizStep_bound (p : Player) (ix cms : ℚ) (hcms : 0 < cms)
    (hm : |p.move_x| ≤ cms) : |((horizStep p ix cms).1).move_x| ≤ cms := by
  have hA : 0 ≤ |ix| * ACCELERATION :=
    mul_nonneg (abs_nonneg ix) (by norm_num [ACCELERATION])
  have hAC : 0 ≤ |ix| * ACCELERATION * CHANGE_DIRECTION_SPEED :=
    mul_nonneg hA (by norm_num [CHANGE_DIRECTION_SPEED])
  rw [abs_le] at hm
  obtain ⟨hm1, hm2⟩ := hm
  simp only [horizStep]
  split_ifs <;> simp only [] <;> rw [abs_le] <;> constructor <;> linarith

theorem decelStep_bound (p : Player) (b : Bool) (c : ℚ) (hm : |p.move_x| ≤ c) :
    |(decelStep p b).move_x| ≤ c := by
  have hc0 : 0 ≤ c := le_trans (abs_nonneg _) hm
  have hD : (0:ℚ) < DECELERATION := by norm_num [DECELERATION]
  simp only [decelStep]
  split_ifs with h1 h2 h3 h4
  · exact hm
  · dsimp only
    simpa using hc0
  · dsimp only
    rw [abs_le] at hm ⊢
    push_neg at h2
    rw [abs_of_pos h3] at h2
    exact ⟨by linarith [hm.1], by linarith [hm.2]⟩
  · dsimp only
    rw [abs_le] at hm ⊢
    push_neg at h2
    rw [abs_of_neg h4] at h2
    exact ⟨by linarith [hm.1], by linarith [hm.2]⟩
  · exact hm

theorem update_counter_zero (p : Player) (i : Vec2) (hc : p.speed_up_counter = 0) :
    (p.update_from_input i).speed_up_counter = 0 := by
  rw [update_from_input_counter, speedCounterStep_eq_self p hc, hc]

theorem update_move_x_bound (p : Player) (i : Vec2) (hc : p.speed_up_counter = 0)
    (hm : |p.move_x| ≤ MAX_SPEED) :
    |(p.update_from_input i).move_x| ≤ MAX_SPEED := by
  have hb := horizStep_bound p i.x MAX_SPEED (by norm_num [MAX_SPEED]) hm
  have h3 : |(jumpStep ((horizStep p i.x MAX_SPEED).1) i.y).move_x| ≤ MAX_SPEED := by
    rw [jumpStep_move_x]
    exact hb
  simp only [Player.update_from_input, speedCounterStep_eq_self p hc,
    currentMaxSpeed_eq_base p hc, alphaStep_move_x, gravityStep_move_x]
  exact decelStep_bound _ _ _ h3

theorem update_move_y_ge (p : Player) (i : Vec2) :
    MAX_FALL_SPEED ≤ (p.update_from_input i).move_y := by
  simp only [Player.update_from_input, alphaStep_move_y, gravityStep]
  split_ifs with h
  · exact le_refl _
  · push_neg at h
    exact h

/-- All mutations the program ever applies to the single `Player` value:
creation, `update_from_input` with key-derived input components, the
assignments performed by the two collision resolvers, and
`update_after_collision`. -/
inductive PlayerReachable : Player → Prop where
  | init (x y : ℚ) : PlayerReachable (Player.new x y)
  | update (p : Player) (i : Vec2) : PlayerReachable p →
      (i.x = -1 ∨ i.x = 0 ∨ i.x = 1) → (i.y = -1 ∨ i.y = 0 ∨ i.y = 1) →
      PlayerReachable (p.update_from_input i)
  | zero_move_x (p : Player) : PlayerReachable p →
      PlayerReachable { p with move_x := 0 }
  | zero_move_y (p : Player) : PlayerReachable p →
      PlayerReachable { p with move_y := 0 }
  | land (p : Player) : PlayerReachable p →
      PlayerReachable { p with move_y := 0, jumping := false }
  | clear_jumping (p : Player) : PlayerReachable p →
      PlayerReachable { p with jumping := false }
  | rotate (p : Player) : PlayerReachable p →
      PlayerReachable p.update_after_collision

theorem reachable_inv (p : Player) (h : PlayerReachable p) :
    p.speed_up_counter = 0 ∧ |p.move_x| ≤ MAX_SPEED := by
  induction h with
  | init x y => exact ⟨rfl, by norm_num [Player.new, MAX_SPEED]⟩
  | update p i hp hx hy ih =>
    exact ⟨update_counter_zero p i ih.1, update_move_x_bound p i ih.1 ih.2⟩
  | zero_move_x p hp ih => exact ⟨ih.1, by norm_num [MAX_SPEED]⟩
  | zero_move_y p hp ih => exact ⟨ih.1, ih.2⟩
  | land p hp ih => exact ⟨ih.1, ih.2⟩
  | clear_jumping p hp ih => exact ⟨ih.1, ih.2⟩
  | rotate p hp ih => exact ⟨ih.1, ih.2⟩

/-- C2: after every call of `update_from_input` on a reachable player state
with input components in {-1, 0, 1}, `|move_x|` is at most the max speed in
effect (base, or boosted while the counter is positive) and `move_y` is at
least `MAX_FALL_SPEED`. -/
theorem C2_speed_invariant (p : Player) (i : Vec2) (h : PlayerReachable p)
    (hx : i.x = -1 ∨ i.x = 0 ∨ i.x = 1) (hy : i.y = -1 ∨ i.y = 0 ∨ i.y = 1) :
    |(p.update_from_input i).move_x| ≤ currentMaxSpeed (p.update_from_input i) ∧
      MAX_FALL_SPEED ≤ (p.update_from_input i).move_y := by
  obtain ⟨hc, hm⟩ := reachable_inv p h
  rw [currentMaxSpeed_eq_base _ (update_counter_zero p i hc)]
  exact ⟨update_move_x_bound p i hc hm, update_move_y_ge p i⟩

/-- C2 (witness): the invariant after one update of the freshly created
player with full-left plus jump input. -/
theorem C2_witness :
    PlayerReachable (Player.new 0 0) ∧
      (|((Player.new 0 0).update_from_input ⟨-1, 1⟩).move_x| ≤
          currentMaxSpeed ((Player.new 0 0).update_from_input ⟨-1, 1⟩) ∧
        MAX_FALL_SPEED ≤ ((Player.new 0 0).update_from_input ⟨-1, 1⟩).move_y) :=
  ⟨PlayerReachable.init 0 0,
    C2_speed_invariant (Player.new 0 0) ⟨-1, 1⟩ (PlayerReachable.init 0 0)
      (Or.inl rfl) (Or.inr (Or.inr rfl))⟩

theorem update_after_collision_x (p : Player) : (p.update_after_collision).x = p.x := rfl

theorem update_after_collision_y (p : Player) : (p.update_after_collision).y = p.y := rfl

theorem update_after_collision_counter (p : Player) :
    (p.update_after_collision).speed_up_counter = p.speed_up_counter := rfl

theorem move_world_player (g : Game) (x y : ℚ) : (g.move_world x y).player = g.player := rfl

theorem cudBody_x (a : Player × Bool × ℚ) (q : Platform) : (cudBody a q).1.x = a.1.x := by
  simp only [cudBody]
  split_ifs <;> rfl

theorem cudBody_y (a : Player × Bool × ℚ) (q : Platform) : (cudBody a q).1.y = a.1.y := by
  simp only [cudBody]
  split_ifs <;> rfl

theorem cudBody_counter (a : Player × Bool × ℚ) (q : Platform) :
    (cudBody a q).1.speed_up_counter = a.1.speed_up_counter := by
  simp only [cudBody]
  split_ifs <;> rfl

theorem cud_foldl_x (l : List Platform) (a : Player × Bool × ℚ) :
    (l.foldl cudBody a).1.x = a.1.x := by
  induction l generalizing a with
  | nil => rfl
  | cons q t ih => rw [List.foldl_cons, ih, cudBody_x]

theorem cud_foldl_y (l : List Platform) (a : Player × Bool × ℚ) :
    (l.foldl cudBody a).1.y = a.1.y := by
  induction l generalizing a with
  | nil => rfl
  | cons q t ih => rw [List.foldl_cons, ih, cudBody_y]

theorem cud_foldl_counter (l : List Platform) (a : Player × Bool × ℚ) :
    (l.foldl cudBody a).1.speed_up_counter = a.1.speed_up_counter := by
  induction l generalizing a with
  | nil => rfl
  | cons q t ih => rw [List.foldl_cons, ih, cudBody_counter]

theorem collision_left_right_player_x (g : Game) :
    g.collision_left_right.player.x = g.player.x := by
  simp only [Game.collision_left_right]
  split_ifs <;> rfl

theorem collision_left_right_player_y (g : Game) :
    g.collision_left_right.player.y = g.player.y := by
  simp only [Game.collision_left_right]
  split_ifs <;> rfl

theorem collision_left_right_player_counter (g : Game) :
    g.collision_left_right.player.speed_up_counter = g.player.speed_up_counter := by
  simp only [Game.collision_left_right]
  split_ifs <;> rfl

theorem collision_up_down_player_x (g : Game) :
    g.collision_up_down.player.x = g.player.x := by
  simp only [Game.collision_up_down]
  split_ifs <;> exact cud_foldl_x g.game_objects (g.player, false, 0)

theorem collision_up_down_player_y (g : Game) :
    g.collision_up_down.player.y = g.player.y := by
  simp only [Game.collision_up_down]
  split_ifs <;> exact cud_foldl_y g.game_objects (g.player, false, 0)

theorem collision_up_down_player_counter (g : Game) :
    g.collision_up_down.player.speed_up_counter = g.player.speed_up_counter := by
  simp only [Game.collision_up_down]
  split_ifs <;> exact cud_foldl_counter g.game_objects (g.player, false, 0)

/-- C9: `move_world(x, y)` adds exactly `(x, y)` to every game object
position, adds exactly `(0.25 x, 0.25 y)` to `background_offset`, and leaves
the player untouched; hence a full frame update never changes `player.x`
or `player.y`. -/
theorem C9_move_world_spec :
    (∀ (g : Game) (x y : ℚ),
      (g.move_world x y).game_objects =
        g.game_objects.map (fun q => { q with x := q.x + x, y := q.y + y }) ∧
      (g.move_world x y).background_offset.x = g.background_offset.x + x * (25/100) ∧
      (g.move_world x y).background_offset.y = g.background_offset.y + y * (25/100) ∧
      (g.move_world x y).player = g.player) ∧
    ∀ g : Game, g.update.player.x = g.player.x ∧ g.update.player.y = g.player.y := by
  constructor
  · intro g x y
    exact ⟨rfl, rfl, rfl, rfl⟩
  · intro g
    constructor
    · simp only [Game.update, update_after_collision_x, collision_up_down_player_x,
        move_world_player, collision_left_right_player_x, update_from_input_x]
    · simp only [Game.update, update_after_collision_y, collision_up_down_player_y,
        move_world_player, collision_left_right_player_y, update_from_input_y]

/-- All game states reachable from `Game::new` through the event-handler
entry points `update`, `key_down_event` and `key_up_event`. -/
inductive GameReachable : Game → Prop where
  | init : GameReachable Game.new
  | update (g : Game) : GameReachable g → GameReachable g.update
  | key_down (g : Game) (k : GameKey) : GameReachable g →
      GameReachable (g.key_down_event k)
  | key_up (g : Game) (k : GameKey) : GameReachable g →
      GameReachable (g.key_up_event k)

theorem game_update_counter (g : Game) (hc : g.player.speed_up_counter = 0) :
    g.update.player.speed_up_counter = 0 := by
  simp only [Game.update, update_after_collision_counter, collision_up_down_player_counter,
    move_world_player, collision_left_right_player_counter]
  exact update_counter_zero _ _ hc

theorem key_down_player (g : Game) (k : GameKey) : (g.key_down_event k).player = g.player := by
  cases k <;> rfl

theorem key_up_player (g : Game) (k : GameKey) : (g.key_up_event k).player = g.player := by
  cases k <;> rfl

/-- C10: in every state reachable from `Game::new` via `update`,
`key_down_event` and `key_up_event`, `speed_up_counter` is 0, so the max
speed computed by the next `update_from_input` is the unboosted `MAX_SPEED`. -/
theorem C10_no_speed_boost (g : Game) (h : GameReachable g) :
    g.player.speed_up_counter = 0 ∧
      currentMaxSpeed (speedCounterStep g.player) = MAX_SPEED := by
  have hc : g.player.speed_up_counter = 0 := by
    induction h with
    | init => rfl
    | update g hg ih => exact game_update_counter g ih
    | key_down g k hg ih => rw [key_down_player g k]; exact ih
    | key_up g k hg ih => rw [key_up_player g k]; exact ih
  refine ⟨hc, ?_⟩
  rw [speedCounterStep_eq_self _ hc]
  exact currentMaxSpeed_eq_base _ hc

/-- C10 (witness): the invariant at the initial game state. -/
theorem C10_witness :
    GameReachable Game.new ∧
      (Game.new.player.speed_up_counter = 0 ∧
        currentMaxSpeed (speedCounterStep Game.new.player) = MAX_SPEED) :=
  ⟨GameReachable.init, C10_no_speed_boost Game.new GameReachable.init⟩

/-- The condition under which one platform produces a horizontal collision in
`collision_left_right`: the overlap is beyond tolerance and one of the two
edge comparisons fires. -/
def collidesLR (pl : Player) (q : Platform) : Prop :=
  rect_is_empty_with_tolerance (rect_intersection q.rect pl.rect) = false ∧
    (q.rect.left > pl.rect.left ∨
      (¬ q.rect.left > pl.rect.left ∧ q.rect.right < pl.rect.right))

/-- The world-shift offset a colliding platform produces in
`collision_left_right`. -/
def lrOffset (pl : Player) (q : Platform) : ℚ :=
  if q.rect.left > pl.rect.left then (rect_intersection q.rect pl.rect).w
  else -(rect_intersection q.rect pl.rect).w

theorem clrBody_of_collides (pl : Player) (acc : Bool × ℚ) (q : Platform)
    (h : collidesLR pl q) : clrBody pl acc q = (true, lrOffset pl q) := by
  obtain ⟨he, hcase⟩ := h
  simp only [clrBody, Platform.is_platform, if_true, he, Bool.false_eq_true, if_false,
    lrOffset]
  rcases hcase with h1 | ⟨h1, h2⟩
  · rw [if_pos h1, if_pos h1]
  · rw [if_neg h1, if_neg h1, if_pos h2]

theorem clrBody_of_not_collides (pl : Player) (acc : Bool × ℚ) (q : Platform)
    (h : ¬ collidesLR pl q) : clrBody pl acc q = acc := by
  simp only [collidesLR, not_and_or] at h
  simp only [clrBody, Platform.is_platform, if_true]
  rcases h with h | h
  · have he : rect_is_empty_with_tolerance (rect_intersection q.rect pl.rect) = true := by
      rcases Bool.eq_false_or_eq_true
        (rect_is_empty_with_tolerance (rect_intersection q.rect pl.rect)) with h2 | h2
      · exact h2
      · exact absurd h2 h
    rw [he]
    rfl
  · rw [not_or] at h
    obtain ⟨h1, h2⟩ := h
    rw [not_and] at h2
    split_ifs with he hr
    · rfl
    · exact absurd hr (h2 h1)
    · rfl

theorem clr_foldl_no_collides (pl : Player) (l : List Platform)
    (h : ∀ r ∈ l, ¬ collidesLR pl r) (acc : Bool × ℚ) :
    l.foldl (clrBody pl) acc = acc := by
  induction l generalizing acc with
  | nil => rfl
  | cons q t ih =>
    rw [List.foldl_cons, clrBody_of_not_collides pl acc q (h q (List.mem_cons_self q t))]
    exact ih (fun r hr => h r (List.mem_cons_of_mem q hr)) acc

/-- C3 (counterexample): a platform that overlaps the player beyond tolerance
but spans it horizontally (neither edge comparison fires) produces no world
shift at all and leaves `move_x` untouched. -/
theorem C3_counterexample :
    rect_is_empty_with_tolerance (rect_intersection
        ((⟨-16, 16, 2, 1⟩ : Platform)).rect
        (({ Player.new 0 0 with move_x := 5 } : Player)).rect) = false ∧
      Game.collision_left_right
          ⟨{ Player.new 0 0 with move_x := 5 }, [⟨-16, 16, 2, 1⟩], ⟨0, 0⟩, ⟨0, 0⟩⟩ =
        ⟨{ Player.new 0 0 with move_x := 5 }, [⟨-16, 16, 2, 1⟩], ⟨0, 0⟩, ⟨0, 0⟩⟩ ∧
      ({ Player.new 0 0 with move_x := 5 } : Player).move_x ≠ 0 := by
  refine ⟨?_, ?_, ?_⟩ <;>
    norm_num [Game.collision_left_right, clrBody, List.foldl, rect_intersection,
      rect_is_empty_with_tolerance, Platform.is_platform, Platform.rect, Player.rect,
      Player.new, Rect.left, Rect.right, Rect.top, Rect.bottom, Rect.zero,
      RECT_TOLERANCE, TILE_SIZE]

/-- C3 (amended): if the platform list splits as `l1 ++ q :: l2` where `q`
satisfies a horizontal-collision condition and nothing after it does, then
`collision_left_right` applies exactly one world shift, with `q`'s offset
(the last collider in list order wins), and zeroes `move_x`. -/
theorem C3_collision_left_right_last_wins (g : Game) (l1 l2 : List Platform)
    (q : Platform) (hl : g.game_objects = l1 ++ q :: l2)
    (hq : collidesLR g.player q)
    (h2 : ∀ r ∈ l2, ¬ collidesLR g.player r) :
    g.collision_left_right =
      { (g.move_world (lrOffset g.player q) 0) with
        player := { g.player with move_x := 0 } } := by
  have hfold : (l1 ++ q :: l2).foldl (clrBody g.player) (false, 0) =
      (true, lrOffset g.player q) := by
    rw [List.foldl_append, List.foldl_cons,
      clrBody_of_collides g.player _ q hq,
      clr_foldl_no_collides g.player l2 h2]
  simp only [Game.collision_left_right, hl, hfold]
  rfl

/-- C3 (witness): the amended statement at a single platform overlapping the
player from the right. -/
theorem C3_witness :
    collidesLR (Player.new 0 0) ⟨16, 0, 1, 1⟩ ∧
      Game.collision_left_right ⟨Player.new 0 0, [⟨16, 0, 1, 1⟩], ⟨0, 0⟩, ⟨0, 0⟩⟩ =
        { (Game.move_world ⟨Player.new 0 0, [⟨16, 0, 1, 1⟩], ⟨0, 0⟩, ⟨0, 0⟩⟩
              (lrOffset (Player.new 0 0) ⟨16, 0, 1, 1⟩) 0) with
          player := { Player.new 0 0 with move_x := 0 } } :=
  ⟨by norm_num [collidesLR, rect_intersection, rect_is_empty_with_tolerance,
      Platform.rect, Player.rect, Player.new, Rect.left, Rect.right, Rect.top,
      Rect.bottom, RECT_TOLERANCE, TILE_SIZE],
    C3_collision_left_right_last_wins
      ⟨Player.new 0 0, [⟨16, 0, 1, 1⟩], ⟨0, 0⟩, ⟨0, 0⟩⟩ [] [] ⟨16, 0, 1, 1⟩ rfl
      (by norm_num [collidesLR, rect_intersection, rect_is_empty_with_tolerance,
        Platform.rect, Player.rect, Player.new, Rect.left, Rect.right, Rect.top,
        Rect.bottom, RECT_TOLERANCE, TILE_SIZE])
      (by simp)⟩

end IronJump

namespace IronJump

theorem rest_update_from_input (px py a r : ℚ) :
    Player.update_from_input ⟨px, py, 0, 0, false, a, r, 0⟩ ⟨0, 0⟩ =
      ⟨px, py, 0, -(11/50), true,
        if a + 7/100 > PI_F32 then a + 7/100 - PI_F32 else a + 7/100, r, 0⟩ := by
  norm_num [Player.update_from_input, speedCounterStep, currentMaxSpeed, horizStep,
    jumpStep, decelStep, gravityStep, alphaStep, DECELERATION, MAX_FALL_SPEED,
    UP_SPEED, ACCELERATION, MAX_SPEED]

theorem clr_on_top_noop (px2 py2 mx my al ro : ℚ) (jm : Bool) (sc : Int)
    (qx : ℚ) (ws hs : Int) (i b : Vec2) (hs0 : 0 ≤ hs) :
    Game.collision_left_right
        ⟨⟨px2, py2, mx, my, jm, al, ro, sc⟩, [⟨qx, py2 + TILE_SIZE, ws, hs⟩], i, b⟩ =
      ⟨⟨px2, py2, mx, my, jm, al, ro, sc⟩, [⟨qx, py2 + TILE_SIZE, ws, hs⟩], i, b⟩ := by
  have hcast : (0:ℚ) ≤ (hs:ℚ) := by exact_mod_cast hs0
  have hzero : rect_intersection
      (⟨qx, py2 + TILE_SIZE, ws, hs⟩ : Platform).rect
      (⟨px2, py2, mx, my, jm, al, ro, sc⟩ : Player).rect = Rect.zero := by
    simp only [Platform.rect, Player.rect, rect_intersection, Rect.left, Rect.right,
      Rect.top, Rect.bottom]
    rw [if_pos]
    right
    have h1 : max (py2 + TILE_SIZE) py2 = py2 + TILE_SIZE :=
      max_eq_left (by norm_num [TILE_SIZE])
    have hst : (0:ℚ) ≤ (hs:ℚ) * TILE_SIZE :=
      mul_nonneg hcast (by norm_num [TILE_SIZE])
    have h2 : min (py2 + TILE_SIZE + (hs:ℚ) * TILE_SIZE) (py2 + TILE_SIZE)
        = py2 + TILE_SIZE := min_eq_right (by linarith)
    rw [h1, h2]
    norm_num [RECT_TOLERANCE]
  simp only [Game.collision_left_right, List.foldl, clrBody, Platform.is_platform,
    if_true, hzero]
  norm_num [rect_is_empty_with_tolerance, Rect.zero, RECT_TOLERANCE]

end IronJump

namespace IronJump

theorem cud_on_top_land (px2 py2 mx al ro : ℚ) (jm : Bool) (sc : Int)
    (qx bx bgy : ℚ) (ws hs : Int) (i : Vec2) (hs1 : 1 ≤ hs)
    (hov : RECT_TOLERANCE ≤
      min (qx + (ws:ℚ) * TILE_SIZE) (px2 + TILE_SIZE) - max qx px2) :
    Game.collision_up_down
        ⟨⟨px2, py2, mx, -(11/50), jm, al, ro, sc⟩,
          [⟨qx, py2 + TILE_SIZE + -(11/50), ws, hs⟩], i, ⟨bx, bgy⟩⟩ =
      ⟨⟨px2, py2, mx, 0, false, al, ro, sc⟩, [⟨qx, py2 + TILE_SIZE, ws, hs⟩], i,
        ⟨bx, bgy + 11/200⟩⟩ := by
  have hcast : (1:ℚ) ≤ (hs:ℚ) := by exact_mod_cast hs1
  have hst : (32:ℚ) ≤ (hs:ℚ) * TILE_SIZE := by
    norm_num [TILE_SIZE]
    linarith
  have hov2 : (1/10 : ℚ) ≤
      min (qx + (ws:ℚ) * TILE_SIZE) (px2 + TILE_SIZE) - max qx px2 := by
    norm_num [RECT_TOLERANCE] at hov
    exact hov
  have h1 : max (py2 + TILE_SIZE + -(11/50)) py2 = py2 + TILE_SIZE + -(11/50) :=
    max_eq_left (by norm_num [TILE_SIZE])
  have h2 : min (py2 + TILE_SIZE + -(11/50) + (hs:ℚ) * TILE_SIZE) (py2 + TILE_SIZE)
      = py2 + TILE_SIZE := min_eq_right (by linarith)
  have hint : rect_intersection
      (⟨qx, py2 + TILE_SIZE + -(11/50), ws, hs⟩ : Platform).rect
      (⟨px2, py2, mx, -(11/50), jm, al, ro, sc⟩ : Player).rect =
      ⟨max qx px2, py2 + TILE_SIZE + -(11/50),
        min (qx + (ws:ℚ) * TILE_SIZE) (px2 + TILE_SIZE) - max qx px2, 11/50⟩ := by
    simp only [Platform.rect, Player.rect, rect_intersection, Rect.left, Rect.right,
      Rect.top, Rect.bottom]
    rw [h1, h2]
    rw [if_neg]
    · norm_num
    · push_neg
      refine ⟨by linarith, by norm_num [RECT_TOLERANCE]⟩
  have hemp : rect_is_empty_with_tolerance
      (⟨max qx px2, py2 + TILE_SIZE + -(11/50),
        min (qx + (ws:ℚ) * TILE_SIZE) (px2 + TILE_SIZE) - max qx px2, 11/50⟩ : Rect)
      = false := by
    simp only [rect_is_empty_with_tolerance, RECT_TOLERANCE]
    norm_num
    linarith
  have hbody : cudBody
      ((⟨px2, py2, mx, -(11/50), jm, al, ro, sc⟩ : Player), false, (0:ℚ))
      ⟨qx, py2 + TILE_SIZE + -(11/50), ws, hs⟩ =
      ((⟨px2, py2, mx, 0, false, al, ro, sc⟩ : Player), true, 11/50) := by
    simp only [cudBody, Platform.is_platform, if_true, hint, hemp,
      Bool.false_eq_true, if_false]
    rw [if_neg (by
      simp only [Platform.rect, Player.rect, Rect.bottom]
      push_neg
      linarith)]
    rw [if_pos (by norm_num : (-(11/50) : ℚ) < 0)]
    rw [if_pos (by
      simp only [Platform.rect, Player.rect, Rect.top, Rect.bottom,
        COLLISION_TOLERANCE]
      linarith)]
  simp only [Game.collision_up_down, List.foldl, hbody]
  simp only [Game.move_world, Platform.move_world, List.map, if_true]
  norm_num

end IronJump

namespace IronJump

theorem rest_move_world_h (px py qx a r bx bgy : ℚ) (ws hs : Int) :
    Game.move_world
      ⟨⟨px, py, 0, -(11/50), true,
          (if a + 7/100 > PI_F32 then a + 7/100 - PI_F32 else a + 7/100), r, 0⟩,
        [⟨qx, py + TILE_SIZE, ws, hs⟩], ⟨0, 0⟩, ⟨bx, bgy⟩⟩ 0 0 =
      ⟨⟨px, py, 0, -(11/50), true,
          (if a + 7/100 > PI_F32 then a + 7/100 - PI_F32 else a + 7/100), r, 0⟩,
        [⟨qx, py + TILE_SIZE, ws, hs⟩], ⟨0, 0⟩, ⟨bx, bgy⟩⟩ := by
  simp [Game.move_world, Platform.move_world]

theorem rest_move_world_v (px py qx a r bx bgy : ℚ) (ws hs : Int) :
    Game.move_world
      ⟨⟨px, py, 0, -(11/50), true,
          (if a + 7/100 > PI_F32 then a + 7/100 - PI_F32 else a + 7/100), r, 0⟩,
        [⟨qx, py + TILE_SIZE, ws, hs⟩], ⟨0, 0⟩, ⟨bx, bgy⟩⟩ 0 (-(11/50)) =
      ⟨⟨px, py, 0, -(11/50), true,
          (if a + 7/100 > PI_F32 then a + 7/100 - PI_F32 else a + 7/100), r, 0⟩,
        [⟨qx, py + TILE_SIZE + -(11/50), ws, hs⟩], ⟨0, 0⟩,
        ⟨bx, bgy + -(11/50) * (25/100)⟩⟩ := by
  simp [Game.move_world, Platform.move_world]

theorem rest_update_after (a r px py : ℚ) :
    Player.update_after_collision
      ⟨px, py, 0, 0, false,
        (if a + 7/100 > PI_F32 then a + 7/100 - PI_F32 else a + 7/100), r, 0⟩ =
      ⟨px, py, 0, 0, false,
        (if a + 7/100 > PI_F32 then a + 7/100 - PI_F32 else a + 7/100), r, 0⟩ := by
  norm_num [Player.update_after_collision, TILE_SIZE]

theorem C8_frame (px py qx a r bx bgy : ℚ) (ws hs : Int) (hs1 : 1 ≤ hs)
    (hov : RECT_TOLERANCE ≤
      min (qx + (ws:ℚ) * TILE_SIZE) (px + TILE_SIZE) - max qx px) :
    Game.update ⟨⟨px, py, 0, 0, false, a, r, 0⟩,
        [⟨qx, py + TILE_SIZE, ws, hs⟩], ⟨0, 0⟩, ⟨bx, bgy⟩⟩ =
      ⟨⟨px, py, 0, 0, false,
          (if a + 7/100 > PI_F32 then a + 7/100 - PI_F32 else a + 7/100), r, 0⟩,
        [⟨qx, py + TILE_SIZE, ws, hs⟩], ⟨0, 0⟩, ⟨bx, bgy⟩⟩ := by
  have hs0 : 0 ≤ hs := by omega
  simp only [Game.update]
  rw [rest_update_from_input px py a r]
  dsimp only
  rw [rest_move_world_h px py qx a r bx bgy ws hs]
  rw [clr_on_top_noop px py 0 (-(11/50)) _ r true 0 qx ws hs _ _ hs0]
  dsimp only
  rw [rest_move_world_v px py qx a r bx bgy ws hs]
  rw [cud_on_top_land px py 0 _ r true 0 qx bx (bgy + -(11/50) * (25/100)) ws hs
    ⟨0, 0⟩ hs1 hov]
  dsimp only
  rw [rest_update_after a r px py]
  norm_num

end IronJump

namespace IronJump

theorem C8_invariant (px py qx a r bx bgy : ℚ) (ws hs : Int) (hs1 : 1 ≤ hs)
    (hov : RECT_TOLERANCE ≤
      min (qx + (ws:ℚ) * TILE_SIZE) (px + TILE_SIZE) - max qx px) (k : ℕ) :
    ∃ a2 : ℚ, Game.update^[k]
        ⟨⟨px, py, 0, 0, false, a, r, 0⟩,
          [⟨qx, py + TILE_SIZE, ws, hs⟩], ⟨0, 0⟩, ⟨bx, bgy⟩⟩ =
      ⟨⟨px, py, 0, 0, false, a2, r, 0⟩,
        [⟨qx, py + TILE_SIZE, ws, hs⟩], ⟨0, 0⟩, ⟨bx, bgy⟩⟩ := by
  induction k with
  | zero => exact ⟨a, by simp⟩
  | succ n ih =>
    obtain ⟨a2, h⟩ := ih
    refine ⟨if a2 + 7/100 > PI_F32 then a2 + 7/100 - PI_F32 else a2 + 7/100, ?_⟩
    rw [Function.iterate_succ_apply', h,
      C8_frame px py qx a2 r bx bgy ws hs hs1 hov]

/-- C8: a player resting exactly on top of a platform with
`move_x = move_y = 0` and `jumping = false`, given input `(0, 0)`, ends every
one of the next ten frames with `move_y = 0`, `jumping = false`, and both the
player and the platform at their original positions. -/
theorem C8_rest_scenario (px py qx a r bx bgy : ℚ) (ws hs : Int) (hs1 : 1 ≤ hs)
    (hov : RECT_TOLERANCE ≤
      min (qx + (ws:ℚ) * TILE_SIZE) (px + TILE_SIZE) - max qx px)
    (k : ℕ) (hk : k ≤ 10) :
    (Game.update^[k] ⟨⟨px, py, 0, 0, false, a, r, 0⟩,
        [⟨qx, py + TILE_SIZE, ws, hs⟩], ⟨0, 0⟩, ⟨bx, bgy⟩⟩).player.move_y = 0 ∧
      (Game.update^[k] ⟨⟨px, py, 0, 0, false, a, r, 0⟩,
        [⟨qx, py + TILE_SIZE, ws, hs⟩], ⟨0, 0⟩, ⟨bx, bgy⟩⟩).player.jumping = false ∧
      (Game.update^[k] ⟨⟨px, py, 0, 0, false, a, r, 0⟩,
        [⟨qx, py + TILE_SIZE, ws, hs⟩], ⟨0, 0⟩, ⟨bx, bgy⟩⟩).player.x = px ∧
      (Game.update^[k] ⟨⟨px, py, 0, 0, false, a, r, 0⟩,
        [⟨qx, py + TILE_SIZE, ws, hs⟩], ⟨0, 0⟩, ⟨bx, bgy⟩⟩).player.y = py ∧
      (Game.update^[k] ⟨⟨px, py, 0, 0, false, a, r, 0⟩,
        [⟨qx, py + TILE_SIZE, ws, hs⟩], ⟨0, 0⟩, ⟨bx, bgy⟩⟩).game_objects =
        [⟨qx, py + TILE_SIZE, ws, hs⟩] := by
  obtain ⟨a2, h⟩ := C8_invariant px py qx a r bx bgy ws hs hs1 hov k
  rw [h]
  exact ⟨rfl, rfl, rfl, rfl, rfl⟩

/-- C8 (witness): the scenario at the actual initial world of `Game::new`
(player at (224, 144) resting on the platform at (96, 176)), after 10
frames. -/
theorem C8_witness :
    (1 ≤ (5:Int)) ∧
      (Game.update^[10] ⟨⟨224, 144, 0, 0, false, 1, 0, 0⟩,
        [⟨96, 144 + TILE_SIZE, 11, 5⟩], ⟨0, 0⟩, ⟨-40, -84⟩⟩).player.move_y = 0 ∧
      (Game.update^[10] ⟨⟨224, 144, 0, 0, false, 1, 0, 0⟩,
        [⟨96, 144 + TILE_SIZE, 11, 5⟩], ⟨0, 0⟩, ⟨-40, -84⟩⟩).player.jumping = false ∧
      (Game.update^[10] ⟨⟨224, 144, 0, 0, false, 1, 0, 0⟩,
        [⟨96, 144 + TILE_SIZE, 11, 5⟩], ⟨0, 0⟩, ⟨-40, -84⟩⟩).player.x = 224 ∧
      (Game.update^[10] ⟨⟨224, 144, 0, 0, false, 1, 0, 0⟩,
        [⟨96, 144 + TILE_SIZE, 11, 5⟩], ⟨0, 0⟩, ⟨-40, -84⟩⟩).player.y = 144 ∧
      (Game.update^[10] ⟨⟨224, 144, 0, 0, false, 1, 0, 0⟩,
        [⟨96, 144 + TILE_SIZE, 11, 5⟩], ⟨0, 0⟩, ⟨-40, -84⟩⟩).game_objects =
        [⟨96, 144 + TILE_SIZE, 11, 5⟩] :=
  ⟨by norm_num,
    C8_rest_scenario 224 144 96 1 0 (-40) (-84) 11 5 (by norm_num)
      (by norm_num [TILE_SIZE, RECT_TOLERANCE]) 10 (by norm_num)⟩

end IronJump
